import Mathlib

/-!
# Verification of the golightly concurrent compilation orchestrator

Shallow embedding of the scheduling subsystem of the golightly compiler
front end (`src/golightly/compiler.go`, `src/golightly/sourcefile.go`,
`src/golightly/compilepackage.go`, `src/golightly/error.go`,
`src/golightly/srcloc.go`).

Modelling conventions:
* Go channels are identified by numeric ids (`Nat`); a send on a channel is
  recorded as a pair of the channel id and the message.  The `shutdown`
  channel is special: nothing is ever sent on it, it is only ever closed,
  so we track its closed/open state as a `Bool` and model a receive from it
  as an event carrying the `ok` flag of the Go two-valued receive.
* Go maps are embedded as association lists with overwriting insertion
  (`mapInsert`) and first-match lookup (`mapLookup`), which matches Go map
  assignment and indexing for the string keys used here.
* Goroutine interleaving is embedded by quantifying over the finite list of
  messages/events a loop receives, in arrival order.
* `error` values are embedded as `Option String` (`none` = nil).
* Fields of the Go structs that the orchestrator logic never reads
  (ASTs, symbol tables, the `DataTypeStore`, buffered-channel handles held
  only for forwarding) are omitted; every field read or written by the
  embedded code paths is present.
-/

namespace Golightly

/-- `type SrcLoc` from srcloc.go: a line/column location in a source file. -/
structure SrcLoc where
  line : Int
  column : Int
deriving DecidableEq, Repr

/-- `type SrcSpan` from srcloc.go: a from/to range in the source file.
The Go field `end` is a Lean keyword and is rendered `endPos`. -/
structure SrcSpan where
  start : SrcLoc
  endPos : SrcLoc
deriving DecidableEq, Repr

/-- `type Error` from error.go: filename, source span and message. -/
structure GoError where
  filename : String
  pos : SrcSpan
  message : String
deriving DecidableEq, Repr

/-- `func (e *Error) Error() string` from error.go:
`fmt.Sprint(e.filename, ":", e.pos.start.Line, ": ", e.message)`.
`fmt.Sprint` inserts a space only between two adjacent non-string operands;
here every operand is adjacent to a string, so the result is plain
concatenation with the line number printed in decimal. -/
def GoError.errorText (e : GoError) : String :=
  e.filename ++ ":" ++ toString e.pos.start.line ++ ": " ++ e.message

/-- `type compileStatus` from compiler.go. -/
inductive compileStatus where
  | parsing
  | symbolsAvailable
  | complete
deriving DecidableEq, Repr

/-- Numeric value of a `compileStatus`, as in the Go `iota` enumeration
(`compileStatusParsing = 0`, `compileStatusSymbolsAvailable = 1`,
`compileStatusComplete = 2`).  The Go zero value of the field is
`compileStatusParsing`. -/
def compileStatus.toNat : compileStatus → Nat
  | .parsing => 0
  | .symbolsAvailable => 1
  | .complete => 2

/-- `type completionMessage` from compiler.go: sent to notify a caller of
completion of compilation, with a possible error. -/
structure completionMessage where
  packageName : String
  fileName : String
  err : Option String
deriving DecidableEq, Repr

/-- `type compileSrcMessage` from compiler.go: request that a file be
compiled.  `completeChannel` is a channel id. -/
structure compileSrcMessage where
  fileName : String
  completeChannel : Nat
deriving DecidableEq, Repr

/-- `type importMessage` from compiler.go: request that a package be
imported.  `completeChannel` is a channel id. -/
structure importMessage where
  packageName : String
  fromFileName : String
  pos : SrcSpan
  completeChannel : Nat
deriving DecidableEq, Repr

/-! ## Association-list embedding of Go maps -/

/-- Go map assignment `m[k] = v`: overwrite the binding of `k` if present,
otherwise append it. -/
def mapInsert (k : String) (v : α) : List (String × α) → List (String × α)
  | [] => [(k, v)]
  | (k₀, v₀) :: rest =>
      if k₀ = k then (k, v) :: rest else (k₀, v₀) :: mapInsert k v rest

/-- Go map indexing `v, ok := m[k]`. -/
def mapLookup (k : String) : List (String × α) → Option α
  | [] => none
  | (k₀, v₀) :: rest => if k₀ = k then some v₀ else mapLookup k rest

/-! ## The `Compile` front end (compiler.go, `func (c *Compiler) Compile`) -/

/-- The request-issuing pass of `Compile`: for each name of `srcFiles`, if it
is not yet in the `waitingOn` set, mark it waiting and send a
`compileSrcMessage` for it.  Returns the file names sent, in order; the
`waitingOn` set afterwards is exactly this list. -/
def compileRequestsAux : List String → List String → List String
  | [], _ => []
  | f :: rest, seen =>
      if f ∈ seen then compileRequestsAux rest seen
      else f :: compileRequestsAux rest (f :: seen)

/-- File names for which `Compile` issues a `compileSrcMessage` (first
occurrence of each distinct name, in order). -/
def compileRequests (srcFiles : List String) : List String :=
  compileRequestsAux srcFiles []

/-- Outcome of the `Compile` receive loop on a finite arrival prefix. -/
inductive CompileOutcome where
  /-- The loop hit `break` and `Compile` returned `err`, with the recorded
  closed/open state of the `shutdown` channel. -/
  | returned (err : Option String) (shutdownClosed : Bool)
  /-- The loop is blocked in `msg := <-completeChannel` with no message
  available in the supplied arrival prefix. -/
  | blocked
  /-- The loop executed `close(c.shutdown)` on an already-closed channel,
  which is a Go runtime panic. -/
  | panicked
deriving DecidableEq, Repr

/-- The receive loop of `Compile`, over the list of `completionMessage`s
arriving on the call's `completeChannel` in order.  State: the `waitingOn`
set (as a duplicate-free list), the `err` variable, and whether
`c.shutdown` has been closed.  Mirrors compiler.go lines 193–211:
receive; if `msg.err != nil` then `err = msg.err; close(c.shutdown)`;
`delete(waitingOn, msg.fileName)`; break when `len(waitingOn) == 0`. -/
def compileLoop : List completionMessage → List String → Option String → Bool →
    CompileOutcome
  | [], _, _, _ => .blocked
  | msg :: rest, waiting, err, shutdownClosed =>
      match msg.err with
      | some e =>
          if shutdownClosed then .panicked
          else
            let waiting₁ := waiting.erase msg.fileName
            if waiting₁ = [] then .returned (some e) true
            else compileLoop rest waiting₁ (some e) true
      | none =>
          let waiting₁ := waiting.erase msg.fileName
          if waiting₁ = [] then .returned err shutdownClosed
          else compileLoop rest waiting₁ err shutdownClosed

/-- `Compile`, as a function of the requested file names and the completion
messages arriving on its reply mailbox, with the `shutdown` channel
initially open. -/
def Compile (srcFiles : List String) (msgs : List completionMessage) :
    CompileOutcome :=
  compileLoop msgs (compileRequests srcFiles) none false

/-! ## File units and the File Scheduler Loop (compiler.go, `compileSrcs`) -/

/-- `type sourceFile` from sourcefile.go, restricted to the fields the
orchestrator reads or writes: package name, file name, the set of imports
being waited on, the reply channel id, and the compilation status.
(The AST, symbol table and forwarded channel handles are never consulted
by the scheduling code and are omitted.) -/
structure sourceFile where
  packageName : String
  fileName : String
  waitingPackageComplete : List String
  completeChannel : Nat
  status : compileStatus
deriving DecidableEq, Repr

/-- `func NewSourceFile` from sourcefile.go: only `fileName`, the channels
and the empty waiting map are set; `packageName` and `status` keep their Go
zero values (`""` and `compileStatusParsing`). -/
def NewSourceFile (fileName : String) (completeChannel : Nat) : sourceFile :=
  { packageName := ""
    fileName := fileName
    waitingPackageComplete := []
    completeChannel := completeChannel
    status := .parsing }

/-- State owned by the `compileSrcs` goroutine: the `c.srcFiles` table,
plus instrumentation recording behaviour the claims speak about:
`spawned` lists the file name of every `go c.compileFileAndComplete(sf)`
launched, in order, and `created` counts calls to `NewSourceFile`. -/
structure SchedState where
  srcFiles : List (String × sourceFile)
  spawned : List String
  created : Nat
deriving DecidableEq, Repr

/-- The initial scheduler state (`c.srcFiles = make(map...)`). -/
def schedInit : SchedState := { srcFiles := [], spawned := [], created := 0 }

/-- The `case csm := <-c.compileSrc` arm of `compileSrcs` (compiler.go lines
278–284): unconditionally build a new `sourceFile`, store it under
`csm.fileName` (overwriting any existing entry), and launch a parse
goroutine.  There is no lookup of an existing unit. -/
def compileSrcsHandle (s : SchedState) (csm : compileSrcMessage) : SchedState :=
  let sf := NewSourceFile csm.fileName csm.completeChannel
  { srcFiles := mapInsert csm.fileName sf s.srcFiles
    spawned := s.spawned ++ [csm.fileName]
    created := s.created + 1 }

/-- Handling a sequence of `compileSrcMessage`s with `compileSrcsHandle`. -/
def compileSrcsSteps (msgs : List compileSrcMessage) (s : SchedState) :
    SchedState :=
  msgs.foldl compileSrcsHandle s

/-- `func (c *Compiler) parseFileAndComplete` (compiler.go lines 217–223),
as a function of the parse result for the file.  On error a completion
message carrying the error is sent on `sf.completeChannel`; on success the
function returns without sending anything.  (The source text of the send is
syntactically incomplete — `completionMessage{sf.packageName, sf.fileName, )}`
— we read the missing third field as the error just computed.)
Returns the list of (channel id, message) sends performed. -/
def parseFileAndComplete (sf : sourceFile) (parseResult : Option String) :
    List (Nat × completionMessage) :=
  match parseResult with
  | some e => [(sf.completeChannel, ⟨sf.packageName, sf.fileName, some e⟩)]
  | none => []

/-! ## Package units and the Package Import Loop (compiler.go, `importPackages`) -/

/-- The channel id of the loop-local `importComplete` channel created at the
top of `importPackages`.  It is created fresh by `make` before any client
channel is seen, so we reserve id 0 for it; client reply channels are
assumed distinct from it (hypotheses of the relevant theorems). -/
def importCompleteChanId : Nat := 0

/-- `type compilePackage` from compilepackage.go, restricted to the fields
`importPackages` reads or writes: package name, outstanding member files,
status, the client subscriber channel ids, and the cached completion
message. -/
structure compilePackage where
  packageName : String
  waitingFileComplete : List String
  status : compileStatus
  clientCompleteChannels : List Nat
  completeMessage : completionMessage
deriving DecidableEq, Repr

/-- `func NewCompilePackage` from compilepackage.go: the
`completeChannel` argument (the import loop passes its own
`importComplete` channel) becomes the sole initial element of
`clientCompleteChannels`; `status` and `completeMessage` keep their Go
zero values (`compileStatusParsing`, `completionMessage{}`). -/
def NewCompilePackage (packageName : String) (completeChannel : Nat) :
    compilePackage :=
  { packageName := packageName
    waitingFileComplete := []
    status := .parsing
    clientCompleteChannels := [completeChannel]
    completeMessage := ⟨"", "", none⟩ }

/-- State owned by the `importPackages` goroutine: the `c.packages` table,
the log of sends performed on client channels (in order), and a counter of
`NewCompilePackage` calls (package compilations started). -/
structure ImpState where
  packages : List (String × compilePackage)
  sends : List (Nat × completionMessage)
  created : Nat
deriving DecidableEq, Repr

/-- The initial import-loop state (`c.packages = make(map...)`). -/
def impInit : ImpState := { packages := [], sends := [], created := 0 }

/-- A message the `importPackages` select can receive (other than from the
shutdown channel): an `importMessage` on `c.addImport` or a
`completionMessage` on the loop-local `importComplete`. -/
inductive importEvent where
  | imp (im : importMessage)
  | complete (cm : completionMessage)
deriving DecidableEq, Repr

/-- One select arm of `importPackages` (compiler.go lines 307–338).
`im` case: if a unit for the package exists and is `Parsing`, append the
requester's channel to its client list; if it exists in any other status,
send it the cached `completeMessage`; otherwise create a fresh unit — the
requester's channel is not recorded and nothing is sent.
`cm` case: if a unit for the package exists, cache `cm`, send `cm` to every
client channel, clear the client list and set the status to
`compileStatusSymbolsAvailable`. -/
def importHandle (s : ImpState) : importEvent → ImpState
  | .imp im =>
      match mapLookup im.packageName s.packages with
      | some cp =>
          if cp.status = .parsing then
            { s with
                packages := mapInsert im.packageName
                  { cp with clientCompleteChannels :=
                      cp.clientCompleteChannels ++ [im.completeChannel] }
                  s.packages }
          else
            { s with sends := s.sends ++ [(im.completeChannel, cp.completeMessage)] }
      | none =>
          { s with
              packages := mapInsert im.packageName
                (NewCompilePackage im.packageName importCompleteChanId) s.packages
              created := s.created + 1 }
  | .complete cm =>
      match mapLookup cm.packageName s.packages with
      | some cp =>
          { s with
              packages := mapInsert cm.packageName
                { cp with
                    completeMessage := cm
                    clientCompleteChannels := []
                    status := .symbolsAvailable }
                s.packages
              sends := s.sends ++ cp.clientCompleteChannels.map (fun ch => (ch, cm)) }
      | none => s

/-- Handling a sequence of import-loop events with `importHandle`. -/
def importSteps (evs : List importEvent) (s : ImpState) : ImpState :=
  evs.foldl importHandle s

/-! ## The shared event-loop shape of `compileSrcs` and `importPackages` -/

/-- One receive observed by a loop's `select`: either a message on a work
channel, or a receive from the `shutdown` channel whose `ok` flag is
`okFlag` (`false` when the channel is closed; `true` would require an
actual send on `shutdown`, which no code path performs). -/
inductive loopEvent (α : Type) where
  | msg (m : α)
  | shutdownRecv (okFlag : Bool)
deriving DecidableEq, Repr

/-- The iteration structure both goroutine loops share (compiler.go lines
272–295 and 299–348): each iteration declares `var running bool`
(initialised `false`), selects one event, and only the
`_, running = <-c.shutdown` arm assigns `running`; after the select the
loop breaks unless `running` is true.  Returns the final state and the
number of non-shutdown messages handled. -/
def loopRun (handle : σ → α → σ) : List (loopEvent α) → σ → σ × Nat
  | [], s => (s, 0)
  | e :: rest, s =>
      let running : Bool :=
        match e with
        | .msg _ => false
        | .shutdownRecv okFlag => okFlag
      let s₁ : σ :=
        match e with
        | .msg m => handle s m
        | .shutdownRecv _ => s
      let handledHere : Nat :=
        match e with
        | .msg _ => 1
        | .shutdownRecv _ => 0
      if running then
        let r := loopRun handle rest s₁
        (r.1, handledHere + r.2)
      else (s₁, handledHere)

/-! ## Invariant predicates -/

/-- No package unit in the table has status `compileStatusComplete`.
(The import loop's completion arm assigns `compileStatusSymbolsAvailable`;
no statement in the source ever assigns `compileStatusComplete`.) -/
def noCompleteUnits (s : ImpState) : Prop :=
  ∀ name cp, mapLookup name s.packages = some cp →
    cp.status ≠ compileStatus.complete

/-- Channel `ch` is not in any package unit's subscriber list. -/
def chanNotSubscribed (ch : Nat) (s : ImpState) : Prop :=
  ∀ name cp, mapLookup name s.packages = some cp →
    ch ∉ cp.clientCompleteChannels

/-! ## Concrete inputs used by counterexamples and witnesses -/

/-- Two compile requests for the same file name handled by the scheduler. -/
def c1requests : List compileSrcMessage := [⟨"a.go", 1⟩, ⟨"a.go", 2⟩]

/-- Import-loop history: one import request for `"p"`, then the aggregate
completion of `"p"`. -/
def c4events : List importEvent :=
  [importEvent.imp ⟨"p", "f.go", ⟨⟨1, 1⟩, ⟨1, 10⟩⟩, 5⟩,
   importEvent.complete ⟨"p", "f.go", none⟩]

/-- An import-loop state in which a unit for `"p"` already exists and is
still parsing, with one subscribed client channel. -/
def c5state : ImpState :=
  { packages := [("p", NewCompilePackage "p" importCompleteChanId)]
    sends := []
    created := 1 }

/-! ## Association-list lemmas -/

theorem mapLookup_mapInsert_self (k : String) (v : α) (m : List (String × α)) :
    mapLookup k (mapInsert k v m) = some v := by
  induction m with
  | nil => simp [mapInsert, mapLookup]
  | cons hd tl ih =>
      obtain ⟨k₀, v₀⟩ := hd
      by_cases h : k₀ = k <;> simp [mapInsert, mapLookup, h, ih]

theorem mapLookup_mapInsert_ne (k k₁ : String) (v : α) (m : List (String × α))
    (h : k₁ ≠ k) : mapLookup k₁ (mapInsert k v m) = mapLookup k₁ m := by
  induction m with
  | nil => simp [mapInsert, mapLookup, Ne.symm h]
  | cons hd tl ih =>
      obtain ⟨k₀, v₀⟩ := hd
      by_cases hk : k₀ = k
      · subst hk
        simp [mapInsert, mapLookup, h, Ne.symm h]
      · simp [mapInsert, mapLookup, hk, ih]

/-! ## C1: file-unit deduplication in the File Scheduler Loop -/

/-- C1 counterexample: handling two `CompileRequest`s for the same file
name `"a.go"` makes the scheduler create two File Units
(`created = 2`), launch two parse-subtasks (`spawned = ["a.go", "a.go"]`),
and overwrite the first unit with the second (the stored unit carries the
second request's reply channel 2, the first request's channel 1 is gone) —
refuting "at most one File Unit is ever created per file name" and the
subscriber-append behaviour. -/
theorem C1_counterexample :
    (compileSrcsSteps c1requests schedInit).created = 2 ∧
    (compileSrcsSteps c1requests schedInit).spawned = ["a.go", "a.go"] ∧
    mapLookup "a.go" (compileSrcsSteps c1requests schedInit).srcFiles =
      some (NewSourceFile "a.go" 2) := by
  refine ⟨rfl, rfl, ?_⟩
  decide

/-- C1 (amended): the File Scheduler Loop performs no per-name
deduplication: every handled `CompileRequest` creates a fresh File Unit,
stores it under the requested name overwriting any existing unit for that
name, and launches a new parse-subtask; File Units keep no subscriber list
and no cached result is ever replayed. -/
theorem C1_every_request_creates_unit (s : SchedState) (csm : compileSrcMessage) :
    (compileSrcsHandle s csm).created = s.created + 1 ∧
    (compileSrcsHandle s csm).spawned = s.spawned ++ [csm.fileName] ∧
    mapLookup csm.fileName (compileSrcsHandle s csm).srcFiles =
      some (NewSourceFile csm.fileName csm.completeChannel) := by
  refine ⟨rfl, rfl, ?_⟩
  simp [compileSrcsHandle, mapLookup_mapInsert_self]

/-! ## C2: no success notice is ever sent -/

/-- C2 (code bug): `parseFileAndComplete` sends a completion message only
on error; on a successful parse (`parseResult = none`) it sends nothing,
contradicting its own doc comment ("After the file is parsed a completion
message is sent to the client").  Consequently, when the only requested
file succeeds, `Compile`'s mailbox never receives a message and the call
blocks instead of returning nil. -/
theorem C2_no_success_notice :
    parseFileAndComplete (NewSourceFile "a.go" 1) none = [] ∧
    (∀ sf : sourceFile, parseFileAndComplete sf none = []) ∧
    Compile ["a.go"] [] = CompileOutcome.blocked :=
  ⟨rfl, fun _ => rfl, rfl⟩

/-! ## C6: the shutdown broadcast is not idempotent -/

/-- C6 (code bug): `Compile` executes `close(c.shutdown)` on *every*
completion message that carries an error; when a second error message
arrives in the same call the channel is already closed and the second
`close` is a Go runtime panic — the claimed idempotence does not hold. -/
theorem C6_second_error_closes_closed_channel :
    Compile ["x.go", "y.go"]
      [⟨"q", "x.go", some "boom"⟩, ⟨"q", "y.go", some "crash"⟩] =
      CompileOutcome.panicked := by
  decide

/-! ## C7: error text carries file and line but not column -/

/-- C7 counterexample: a parse error at file `"a.go"`, line 3, column 7
renders as `"a.go:3: syntax error"`; the digit `7` (the column) occurs
nowhere in the text, so the text does not identify the column. -/
theorem C7_counterexample :
    GoError.errorText ⟨"a.go", ⟨⟨3, 7⟩, ⟨3, 9⟩⟩, "syntax error"⟩ =
      "a.go:3: syntax error" ∧
    ¬ ("7".toList <:+: "a.go:3: syntax error".toList) := by
  refine ⟨rfl, ?_⟩
  decide

/-- C7 (amended): the error text identifies the file name and the line
(`file ++ ":" ++ line ++ ": " ++ message`) but not the column: the text is
unchanged under any change of the column (and of the span's end), so the
column cannot be recovered from it. -/
theorem C7_text_has_file_line_not_column (f msg : String) (l c₁ c₂ : Int)
    (e₁ e₂ : SrcLoc) :
    GoError.errorText ⟨f, ⟨⟨l, c₁⟩, e₁⟩, msg⟩ =
      f ++ ":" ++ toString l ++ ": " ++ msg ∧
    GoError.errorText ⟨f, ⟨⟨l, c₁⟩, e₁⟩, msg⟩ =
      GoError.errorText ⟨f, ⟨⟨l, c₂⟩, e₂⟩, msg⟩ :=
  ⟨rfl, rfl⟩

/-! ## C10: `Compile` on the empty file list blocks -/

/-- C10: with an empty source-file list `Compile` issues no compile
request (so nothing is ever sent to its call-scoped mailbox), yet its
receive loop performs a blocking receive *before* testing whether the
waiting set is empty: with no message it blocks forever, while any single
arriving message would let it proceed past the receive. -/
theorem C10_empty_compile_blocks :
    compileRequests [] = [] ∧
    Compile [] [] = CompileOutcome.blocked ∧
    ∀ (m : completionMessage) (rest : List completionMessage),
      Compile [] (m :: rest) ≠ CompileOutcome.blocked := by
  refine ⟨rfl, rfl, ?_⟩
  intro m rest
  obtain ⟨p, f, err⟩ := m
  cases err <;>
    simp [Compile, compileRequests, compileRequestsAux, compileLoop, List.erase]

/-- Witness for C10: the blocking outcome is observed at the concrete
input, and the loop's first receive consumes a concrete message. -/
theorem C10_witness :
    Compile [] [⟨"p", "a.go", none⟩] ≠ CompileOutcome.blocked :=
  C10_empty_compile_blocks.2.2 ⟨"p", "a.go", none⟩ []

/-! ## C8: both loops exit after their first message -/

/-- In any loop following the shared iteration structure, provided every
receive from the shutdown channel yields `ok = false` (nothing is ever
sent on `shutdown`; it is only closed), the first event already breaks the
loop: a work message is handled and then `running` (still at its
per-iteration initialisation `false`) fails the continue test. -/
theorem loopRun_breaks_after_first_event (handle : σ → α → σ)
    (evs : List (loopEvent α)) (s : σ)
    (h : ∀ okFlag, loopEvent.shutdownRecv okFlag ∈ evs → okFlag = false) :
    (loopRun handle evs s).2 ≤ 1 ∧
    (∀ m rest, evs = loopEvent.msg m :: rest →
       loopRun handle evs s = (handle s m, 1)) := by
  cases evs with
  | nil => simp [loopRun]
  | cons e rest =>
      cases e with
      | msg m =>
          refine ⟨?_, ?_⟩
          · simp [loopRun]
          · intro m₁ rest₁ heq
            obtain ⟨rfl, rfl⟩ : m = m₁ ∧ rest = rest₁ := by
              injection heq with h₁ h₂
              injection h₁ with h₁
              exact ⟨h₁, h₂⟩
            simp [loopRun]
      | shutdownRecv okFlag =>
          have hok : okFlag = false := h okFlag (by simp)
          subst hok
          refine ⟨by simp [loopRun], ?_⟩
          intro m₁ rest₁ heq
          simp at heq

/-- C8: both `compileSrcs` and `importPackages` re-declare `running = false`
on every iteration and only the shutdown arm assigns it, so (given that
nothing is ever sent on the shutdown channel — it is only closed, making
every shutdown receive yield `false`) each loop handles at most one
non-shutdown message in its lifetime and exits immediately after its first
event; in particular handling a first work message leaves all later
events unprocessed. -/
theorem C8_loops_exit_after_first_message
    (evs₁ : List (loopEvent compileSrcMessage)) (s₁ : SchedState)
    (evs₂ : List (loopEvent importEvent)) (s₂ : ImpState)
    (h₁ : ∀ okFlag, loopEvent.shutdownRecv okFlag ∈ evs₁ → okFlag = false)
    (h₂ : ∀ okFlag, loopEvent.shutdownRecv okFlag ∈ evs₂ → okFlag = false) :
    (loopRun compileSrcsHandle evs₁ s₁).2 ≤ 1 ∧
    (loopRun importHandle evs₂ s₂).2 ≤ 1 ∧
    (∀ m rest, evs₁ = loopEvent.msg m :: rest →
       loopRun compileSrcsHandle evs₁ s₁ = (compileSrcsHandle s₁ m, 1)) ∧
    (∀ ev rest, evs₂ = loopEvent.msg ev :: rest →
       loopRun importHandle evs₂ s₂ = (importHandle s₂ ev, 1)) := by
  obtain ⟨a₁, b₁⟩ := loopRun_breaks_after_first_event compileSrcsHandle evs₁ s₁ h₁
  obtain ⟨a₂, b₂⟩ := loopRun_breaks_after_first_event importHandle evs₂ s₂ h₂
  exact ⟨a₁, a₂, b₁, b₂⟩

/-- Witness for C8: two compile requests and two import events are
delivered to the respective loops, yet each loop handles at most one. -/
theorem C8_witness :
    (loopRun compileSrcsHandle
      [loopEvent.msg ⟨"a.go", 1⟩, loopEvent.msg ⟨"b.go", 2⟩] schedInit).2 ≤ 1 ∧
    (loopRun importHandle
      [loopEvent.msg (importEvent.imp ⟨"p", "a.go", ⟨⟨1, 1⟩, ⟨1, 2⟩⟩, 3⟩),
       loopEvent.shutdownRecv false] impInit).2 ≤ 1 :=
  ⟨(C8_loops_exit_after_first_message
      [loopEvent.msg ⟨"a.go", 1⟩, loopEvent.msg ⟨"b.go", 2⟩] schedInit
      [loopEvent.msg (importEvent.imp ⟨"p", "a.go", ⟨⟨1, 1⟩, ⟨1, 2⟩⟩, 3⟩),
       loopEvent.shutdownRecv false] impInit
      (by intro okFlag hmem; simp at hmem)
      (by intro okFlag hmem; simp at hmem; exact hmem)).1,
   (C8_loops_exit_after_first_message
      [loopEvent.msg ⟨"a.go", 1⟩, loopEvent.msg ⟨"b.go", 2⟩] schedInit
      [loopEvent.msg (importEvent.imp ⟨"p", "a.go", ⟨⟨1, 1⟩, ⟨1, 2⟩⟩, 3⟩),
       loopEvent.shutdownRecv false] impInit
      (by intro okFlag hmem; simp at hmem)
      (by intro okFlag hmem; simp at hmem; exact hmem)).2.1⟩

/-! ## C5: import deduplication in the Package Import Loop -/

/-- C5: when an `ImportRequest` arrives for a package whose unit already
exists, no new unit is created and no compilation is triggered
(`created` is unchanged); if the unit is still `Parsing` the requester's
reply channel is appended to its subscriber list and nothing is sent,
otherwise the table is untouched and the cached `completeMessage` is sent
to the requester immediately. -/
theorem C5_import_request_deduplicated (s : ImpState) (im : importMessage)
    (cp : compilePackage)
    (h : mapLookup im.packageName s.packages = some cp) :
    (importHandle s (importEvent.imp im)).created = s.created ∧
    (cp.status = compileStatus.parsing →
       (importHandle s (importEvent.imp im)).packages =
         mapInsert im.packageName
           { cp with clientCompleteChannels :=
               cp.clientCompleteChannels ++ [im.completeChannel] }
           s.packages ∧
       (importHandle s (importEvent.imp im)).sends = s.sends) ∧
    (cp.status ≠ compileStatus.parsing →
       (importHandle s (importEvent.imp im)).packages = s.packages ∧
       (importHandle s (importEvent.imp im)).sends =
         s.sends ++ [(im.completeChannel, cp.completeMessage)]) := by
  by_cases hst : cp.status = compileStatus.parsing <;>
    simp [importHandle, h, hst]

/-- Witness for C5: a second importer of the already-pending package `"p"`
is folded into the subscriber list; the creation counter stays at 1. -/
theorem C5_witness :
    (importHandle c5state
        (importEvent.imp ⟨"p", "g.go", ⟨⟨2, 1⟩, ⟨2, 2⟩⟩, 7⟩)).created =
      c5state.created ∧
    ((NewCompilePackage "p" importCompleteChanId).status = compileStatus.parsing →
       (importHandle c5state
           (importEvent.imp ⟨"p", "g.go", ⟨⟨2, 1⟩, ⟨2, 2⟩⟩, 7⟩)).packages =
         mapInsert "p"
           { NewCompilePackage "p" importCompleteChanId with
               clientCompleteChannels :=
                 (NewCompilePackage "p" importCompleteChanId).clientCompleteChannels
                   ++ [7] }
           c5state.packages ∧
       (importHandle c5state
           (importEvent.imp ⟨"p", "g.go", ⟨⟨2, 1⟩, ⟨2, 2⟩⟩, 7⟩)).sends =
         c5state.sends) :=
  ⟨(C5_import_request_deduplicated c5state ⟨"p", "g.go", ⟨⟨2, 1⟩, ⟨2, 2⟩⟩, 7⟩
      (NewCompilePackage "p" importCompleteChanId) (by decide)).1,
   (C5_import_request_deduplicated c5state ⟨"p", "g.go", ⟨⟨2, 1⟩, ⟨2, 2⟩⟩, 7⟩
      (NewCompilePackage "p" importCompleteChanId) (by decide)).2.1⟩

/-! ## C3: what `Compile` returns when errors arrive -/

theorem compileLoop_no_error_drains :
    ∀ (msgs : List completionMessage) (waiting : List String)
      (err : Option String) (sc : Bool),
      waiting.Nodup → (msgs.map completionMessage.fileName).Perm waiting →
      waiting ≠ [] → msgs.filterMap completionMessage.err = [] →
      compileLoop msgs waiting err sc = CompileOutcome.returned err sc := by
  intro msgs
  induction msgs with
  | nil =>
      intro waiting err sc _ hp hne _
      exact absurd hp.symm.eq_nil hne
  | cons msg rest ih =>
      intro waiting err sc hnd hp hne hfm
      obtain ⟨p, f, merr⟩ := msg
      simp only [List.map_cons] at hp
      rw [List.cons_perm_iff_perm_erase] at hp
      obtain ⟨hmem, hp'⟩ := hp
      cases merr with
      | some e => simp [List.filterMap_cons] at hfm
      | none =>
          simp only [List.filterMap_cons] at hfm
          simp only [compileLoop]
          by_cases hW : waiting.erase f = []
          · simp [hW]
          · simp only [hW, if_false]
            exact ih (waiting.erase f) err sc (hnd.erase f) hp' hW hfm

theorem compileLoop_single_error_drains :
    ∀ (msgs : List completionMessage) (waiting : List String)
      (err : Option String) (e : String),
      waiting.Nodup → (msgs.map completionMessage.fileName).Perm waiting →
      waiting ≠ [] → msgs.filterMap completionMessage.err = [e] →
      compileLoop msgs waiting err false = CompileOutcome.returned (some e) true := by
  intro msgs
  induction msgs with
  | nil =>
      intro waiting err e _ hp hne _
      exact absurd hp.symm.eq_nil hne
  | cons msg rest ih =>
      intro waiting err e hnd hp hne hfm
      obtain ⟨p, f, merr⟩ := msg
      simp only [List.map_cons] at hp
      rw [List.cons_perm_iff_perm_erase] at hp
      obtain ⟨hmem, hp'⟩ := hp
      cases merr with
      | some e₀ =>
          simp only [List.filterMap_cons] at hfm
          obtain ⟨rfl, hrest⟩ :
              e₀ = e ∧ rest.filterMap completionMessage.err = [] := by
            cases hfm₀ : rest.filterMap completionMessage.err <;> simp_all
          simp only [compileLoop]
          by_cases hW : waiting.erase f = []
          · simp [hW]
          · simp only [hW, if_false, if_neg]
            exact compileLoop_no_error_drains rest (waiting.erase f) (some e₀) true
              (hnd.erase f) hp' hW hrest
      | none =>
          simp only [List.filterMap_cons] at hfm
          simp only [compileLoop]
          by_cases hW : waiting.erase f = []
          · exfalso
            rw [hW] at hp'
            have h₀ : rest = [] := List.map_eq_nil_iff.mp hp'.eq_nil
            subst h₀
            simp at hfm
          · simp only [hW, if_false]
            exact ih (waiting.erase f) err e (hnd.erase f) hp' hW hfm

theorem compileLoop_error_after_close_panics :
    ∀ (msgs : List completionMessage) (waiting : List String)
      (err : Option String) (e : String) (tail : List String),
      waiting.Nodup → (msgs.map completionMessage.fileName).Perm waiting →
      msgs.filterMap completionMessage.err = e :: tail →
      compileLoop msgs waiting err true = CompileOutcome.panicked := by
  intro msgs
  induction msgs with
  | nil =>
      intro waiting err e tail _ _ hfm
      simp at hfm
  | cons msg rest ih =>
      intro waiting err e tail hnd hp hfm
      obtain ⟨p, f, merr⟩ := msg
      simp only [List.map_cons] at hp
      rw [List.cons_perm_iff_perm_erase] at hp
      obtain ⟨hmem, hp'⟩ := hp
      cases merr with
      | some e₀ => simp [compileLoop]
      | none =>
          simp only [List.filterMap_cons] at hfm
          simp only [compileLoop]
          by_cases hW : waiting.erase f = []
          · exfalso
            rw [hW] at hp'
            have h₀ : rest = [] := List.map_eq_nil_iff.mp hp'.eq_nil
            subst h₀
            simp at hfm
          · simp only [hW, if_false]
            exact ih (waiting.erase f) err e tail (hnd.erase f) hp' hfm

theorem compileLoop_two_errors_panics :
    ∀ (msgs : List completionMessage) (waiting : List String)
      (err : Option String) (e₁ e₂ : String) (tail : List String),
      waiting.Nodup → (msgs.map completionMessage.fileName).Perm waiting →
      msgs.filterMap completionMessage.err = e₁ :: e₂ :: tail →
      compileLoop msgs waiting err false = CompileOutcome.panicked := by
  intro msgs
  induction msgs with
  | nil =>
      intro waiting err e₁ e₂ tail _ _ hfm
      simp at hfm
  | cons msg rest ih =>
      intro waiting err e₁ e₂ tail hnd hp hfm
      obtain ⟨p, f, merr⟩ := msg
      simp only [List.map_cons] at hp
      rw [List.cons_perm_iff_perm_erase] at hp
      obtain ⟨hmem, hp'⟩ := hp
      cases merr with
      | some e₀ =>
          simp only [List.filterMap_cons, List.cons.injEq] at hfm
          obtain ⟨rfl, hrest⟩ := hfm
          simp only [compileLoop]
          by_cases hW : waiting.erase f = []
          · exfalso
            rw [hW] at hp'
            have h₀ : rest = [] := List.map_eq_nil_iff.mp hp'.eq_nil
            subst h₀
            simp at hrest
          · simp only [hW, if_false]
            exact compileLoop_error_after_close_panics rest (waiting.erase f)
              (some e₀) e₂ tail (hnd.erase f) hp' hrest
      | none =>
          simp only [List.filterMap_cons] at hfm
          simp only [compileLoop]
          by_cases hW : waiting.erase f = []
          · exfalso
            rw [hW] at hp'
            have h₀ : rest = [] := List.map_eq_nil_iff.mp hp'.eq_nil
            subst h₀
            simp at hfm
          · simp only [hW, if_false]
            exact ih (waiting.erase f) err e₁ e₂ tail (hnd.erase f) hp' hfm

theorem compileRequestsAux_not_mem_seen :
    ∀ (files seen : List String) (x : String),
      x ∈ compileRequestsAux files seen → x ∉ seen := by
  intro files
  induction files with
  | nil =>
      intro seen x hx
      simp [compileRequestsAux] at hx
  | cons f rest ih =>
      intro seen x hx
      simp only [compileRequestsAux] at hx
      by_cases hf : f ∈ seen
      · rw [if_pos hf] at hx
        exact ih seen x hx
      · rw [if_neg hf] at hx
        cases hx with
        | head => exact hf
        | tail _ h =>
            intro hxs
            exact (ih (f :: seen) x h) (List.mem_cons_of_mem f hxs)

theorem compileRequestsAux_nodup :
    ∀ (files seen : List String), (compileRequestsAux files seen).Nodup := by
  intro files
  induction files with
  | nil =>
      intro seen
      simp [compileRequestsAux]
  | cons f rest ih =>
      intro seen
      simp only [compileRequestsAux]
      by_cases hf : f ∈ seen
      · rw [if_pos hf]
        exact ih seen
      · rw [if_neg hf, List.nodup_cons]
        refine ⟨?_, ih (f :: seen)⟩
        intro hmem
        exact (compileRequestsAux_not_mem_seen rest (f :: seen) f hmem) (by simp)

/-- C3 counterexample: with two error notices in one call, `Compile` does
not return the first error `"e1"`: `err` is overwritten by the second
error and the second `close(c.shutdown)` panics, so the call never
returns at all. -/
theorem C3_counterexample :
    Compile ["a.go", "b.go"]
      [⟨"p", "a.go", some "e1"⟩, ⟨"p", "b.go", some "e2"⟩] =
      CompileOutcome.panicked ∧
    CompileOutcome.panicked ≠ CompileOutcome.returned (some "e1") true := by
  exact ⟨by decide, by decide⟩

/-- C3 (amended): when the messages arriving on the call's mailbox report
each requested file exactly once, `Compile` broadcasts shutdown on the
first error and keeps receiving until every requested file has reported;
it returns that error only when it is the *only* error received — a
second error notice in the same call overwrites the stored error and the
repeated `close` of the shutdown channel faults, so the call panics
instead of returning. -/
theorem C3_first_error_only_when_unique (srcFiles : List String)
    (msgs : List completionMessage)
    (hperm : (msgs.map completionMessage.fileName).Perm (compileRequests srcFiles))
    (hne : compileRequests srcFiles ≠ []) :
    (∀ e, msgs.filterMap completionMessage.err = [e] →
        Compile srcFiles msgs = CompileOutcome.returned (some e) true) ∧
    (∀ e₁ e₂ tail, msgs.filterMap completionMessage.err = e₁ :: e₂ :: tail →
        Compile srcFiles msgs = CompileOutcome.panicked) := by
  constructor
  · intro e herr
    exact compileLoop_single_error_drains msgs (compileRequests srcFiles) none e
      (compileRequestsAux_nodup srcFiles []) hperm hne herr
  · intro e₁ e₂ tail herr
    exact compileLoop_two_errors_panics msgs (compileRequests srcFiles) none e₁ e₂ tail
      (compileRequestsAux_nodup srcFiles []) hperm herr

/-- Witness for C3: the single error arrives first, the loop keeps
draining the remaining file's report, and the call returns that error
with shutdown broadcast. -/
theorem C3_witness :
    Compile ["a.go", "b.go"]
      [⟨"p", "a.go", some "late"⟩, ⟨"p", "b.go", none⟩] =
      CompileOutcome.returned (some "late") true :=
  (C3_first_error_only_when_unique ["a.go", "b.go"]
      [⟨"p", "a.go", some "late"⟩, ⟨"p", "b.go", none⟩]
      (List.Perm.refl _) (by decide)).1 "late" rfl

/-! ## C4: unit status transitions -/

theorem noCompleteUnits_handle (s : ImpState) (ev : importEvent)
    (h : noCompleteUnits s) : noCompleteUnits (importHandle s ev) := by
  intro name cq hq
  cases ev with
  | imp im =>
      cases hl : mapLookup im.packageName s.packages with
      | some cp =>
          by_cases hst : cp.status = compileStatus.parsing
          · simp only [importHandle, hl, if_pos hst] at hq
            by_cases hn : name = im.packageName
            · subst hn
              rw [mapLookup_mapInsert_self] at hq
              injection hq with hq
              subst hq
              simpa using h _ cp hl
            · rw [mapLookup_mapInsert_ne _ _ _ _ hn] at hq
              exact h _ _ hq
          · simp only [importHandle, hl, if_neg hst] at hq
            exact h _ _ hq
      | none =>
          simp only [importHandle, hl] at hq
          by_cases hn : name = im.packageName
          · subst hn
            rw [mapLookup_mapInsert_self] at hq
            injection hq with hq
            subst hq
            simp [NewCompilePackage]
          · rw [mapLookup_mapInsert_ne _ _ _ _ hn] at hq
            exact h _ _ hq
  | complete cm =>
      cases hl : mapLookup cm.packageName s.packages with
      | some cp =>
          simp only [importHandle, hl] at hq
          by_cases hn : name = cm.packageName
          · subst hn
            rw [mapLookup_mapInsert_self] at hq
            injection hq with hq
            subst hq
            simp
          · rw [mapLookup_mapInsert_ne _ _ _ _ hn] at hq
            exact h _ _ hq
      | none =>
          simp only [importHandle, hl] at hq
          exact h _ _ hq

theorem noCompleteUnits_steps (evs : List importEvent) (s : ImpState)
    (h : noCompleteUnits s) : noCompleteUnits (importSteps evs s) := by
  induction evs generalizing s with
  | nil => exact h
  | cons ev rest ih =>
      simp only [importSteps, List.foldl_cons]
      exact ih (importHandle s ev) (noCompleteUnits_handle s ev h)

theorem importHandle_preserves_unit (s : ImpState) (ev : importEvent)
    (name : String) (cp : compilePackage)
    (h : mapLookup name s.packages = some cp) :
    ∃ cq, mapLookup name (importHandle s ev).packages = some cq := by
  cases ev with
  | imp im =>
      cases hl : mapLookup im.packageName s.packages with
      | some cq₀ =>
          by_cases hst : cq₀.status = compileStatus.parsing
          · simp only [importHandle, hl, if_pos hst]
            by_cases hn : name = im.packageName
            · subst hn
              exact ⟨_, mapLookup_mapInsert_self _ _ _⟩
            · rw [mapLookup_mapInsert_ne _ _ _ _ hn]
              exact ⟨cp, h⟩
          · simp only [importHandle, hl, if_neg hst]
            exact ⟨cp, h⟩
      | none =>
          simp only [importHandle, hl]
          by_cases hn : name = im.packageName
          · subst hn
            exact ⟨_, mapLookup_mapInsert_self _ _ _⟩
          · rw [mapLookup_mapInsert_ne _ _ _ _ hn]
            exact ⟨cp, h⟩
  | complete cm =>
      cases hl : mapLookup cm.packageName s.packages with
      | some cq₀ =>
          simp only [importHandle, hl]
          by_cases hn : name = cm.packageName
          · subst hn
            exact ⟨_, mapLookup_mapInsert_self _ _ _⟩
          · rw [mapLookup_mapInsert_ne _ _ _ _ hn]
            exact ⟨cp, h⟩
      | none =>
          simp only [importHandle, hl]
          exact ⟨cp, h⟩

theorem importHandle_status_mono (s : ImpState) (ev : importEvent)
    (name : String) (cp cp' : compilePackage) (hnc : noCompleteUnits s)
    (h : mapLookup name s.packages = some cp)
    (h' : mapLookup name (importHandle s ev).packages = some cp') :
    cp.status.toNat ≤ cp'.status.toNat := by
  cases ev with
  | imp im =>
      by_cases hn : name = im.packageName
      · subst hn
        by_cases hst : cp.status = compileStatus.parsing
        · simp only [importHandle, h, if_pos hst] at h'
          rw [mapLookup_mapInsert_self] at h'
          injection h' with h'
          subst h'
          simp
        · simp only [importHandle, h, if_neg hst] at h'
          injection h' with h'
          subst h'
          exact le_refl _
      · cases hl : mapLookup im.packageName s.packages with
        | some cq₀ =>
            by_cases hst : cq₀.status = compileStatus.parsing
            · simp only [importHandle, hl, if_pos hst] at h'
              rw [mapLookup_mapInsert_ne _ _ _ _ hn, h] at h'
              injection h' with h'
              subst h'
              exact le_refl _
            · simp only [importHandle, hl, if_neg hst] at h'
              rw [h] at h'
              injection h' with h'
              subst h'
              exact le_refl _
        | none =>
            simp only [importHandle, hl] at h'
            rw [mapLookup_mapInsert_ne _ _ _ _ hn, h] at h'
            injection h' with h'
            subst h'
            exact le_refl _
  | complete cm =>
      by_cases hn : name = cm.packageName
      · subst hn
        simp only [importHandle, h] at h'
        rw [mapLookup_mapInsert_self] at h'
        injection h' with h'
        subst h'
        have hne := hnc _ _ h
        cases hcs : cp.status with
        | parsing => simp [compileStatus.toNat]
        | symbolsAvailable => simp [compileStatus.toNat]
        | complete => exact absurd hcs hne
      · cases hl : mapLookup cm.packageName s.packages with
        | some cq₀ =>
            simp only [importHandle, hl] at h'
            rw [mapLookup_mapInsert_ne _ _ _ _ hn, h] at h'
            injection h' with h'
            subst h'
            exact le_refl _
        | none =>
            simp only [importHandle, hl] at h'
            rw [h] at h'
            injection h' with h'
            subst h'
            exact le_refl _

theorem importSteps_status_mono (evs : List importEvent) (s : ImpState)
    (name : String) (cp cp' : compilePackage) (hnc : noCompleteUnits s)
    (h : mapLookup name s.packages = some cp)
    (h' : mapLookup name (importSteps evs s).packages = some cp') :
    cp.status.toNat ≤ cp'.status.toNat := by
  induction evs generalizing s cp with
  | nil =>
      simp only [importSteps, List.foldl_nil] at h'
      rw [h] at h'
      injection h' with h'
      subst h'
      exact le_refl _
  | cons ev rest ih =>
      simp only [importSteps, List.foldl_cons] at h'
      obtain ⟨cmid, hmid⟩ := importHandle_preserves_unit s ev name cp h
      exact le_trans (importHandle_status_mono s ev name cp cmid hnc h hmid)
        (ih (importHandle s ev) cmid (noCompleteUnits_handle s ev hnc) hmid h')

theorem compileSrcsSteps_status_parsing :
    ∀ (msgs : List compileSrcMessage) (s : SchedState),
      (∀ name sf, mapLookup name s.srcFiles = some sf →
         sf.status = compileStatus.parsing) →
      ∀ name sf, mapLookup name (compileSrcsSteps msgs s).srcFiles = some sf →
        sf.status = compileStatus.parsing := by
  intro msgs
  induction msgs with
  | nil => intro s h; exact h
  | cons m rest ih =>
      intro s h
      simp only [compileSrcsSteps, List.foldl_cons]
      refine ih (compileSrcsHandle s m) ?_
      intro name sf hsf
      simp only [compileSrcsHandle] at hsf
      by_cases hn : name = m.fileName
      · subst hn
        rw [mapLookup_mapInsert_self] at hsf
        injection hsf with hsf
        subst hsf
        rfl
      · rw [mapLookup_mapInsert_ne _ _ _ _ hn] at hsf
        exact h _ _ hsf

/-- C4 counterexample: a package unit whose aggregate result has been
computed and fanned out (the cached message was delivered to the internal
subscriber channel) has status `SymbolsAvailable`, not `Complete` — the
Complete status is never entered. -/
theorem C4_counterexample :
    ((mapLookup "p" (importSteps c4events impInit).packages).map
        compilePackage.status) = some compileStatus.symbolsAvailable ∧
    (importSteps c4events impInit).sends =
      [(importCompleteChanId, ⟨"p", "f.go", none⟩)] ∧
    compileStatus.symbolsAvailable ≠ compileStatus.complete := by
  exact ⟨by decide, by decide, by decide⟩

/-- C4 (amended): unit statuses never regress, but the terminal transition
differs from the claim: the Package Import Loop's fan-out step sets the
unit to `SymbolsAvailable` (caching the message and clearing the
subscriber list), the `Complete` status is never assigned to any package
unit reachable from the initial state, and File Units never leave
`Parsing` (the scheduler never updates their status at all). -/
theorem C4_status_transitions :
    (∀ (s : ImpState) (cm : completionMessage) (cp : compilePackage),
        mapLookup cm.packageName s.packages = some cp →
        (importHandle s (importEvent.complete cm)).packages =
          mapInsert cm.packageName
            { cp with
                completeMessage := cm
                clientCompleteChannels := []
                status := compileStatus.symbolsAvailable }
            s.packages) ∧
    (∀ evs name cp,
        mapLookup name (importSteps evs impInit).packages = some cp →
        cp.status ≠ compileStatus.complete) ∧
    (∀ evs s name cp cp', noCompleteUnits s →
        mapLookup name s.packages = some cp →
        mapLookup name (importSteps evs s).packages = some cp' →
        cp.status.toNat ≤ cp'.status.toNat) ∧
    (∀ msgs name sf,
        mapLookup name (compileSrcsSteps msgs schedInit).srcFiles = some sf →
        sf.status = compileStatus.parsing) := by
  refine ⟨?_, ?_, ?_, ?_⟩
  · intro s cm cp h
    simp [importHandle, h]
  · intro evs name cp h
    exact noCompleteUnits_steps evs impInit
      (fun n cq hq => by simp [impInit, mapLookup] at hq) name cp h
  · intro evs s name cp cp' hnc h h'
    exact importSteps_status_mono evs s name cp cp' hnc h h'
  · intro msgs name sf h
    exact compileSrcsSteps_status_parsing msgs schedInit
      (fun n sf₀ hq => by simp [schedInit, mapLookup] at hq) name sf h

/-- Witness for C4: the unit created by a concrete import request has a
status distinct from Complete. -/
theorem C4_witness :
    (NewCompilePackage "p" importCompleteChanId).status ≠
      compileStatus.complete :=
  C4_status_transitions.2.1 [importEvent.imp ⟨"p", "f.go", ⟨⟨1, 1⟩, ⟨1, 2⟩⟩, 3⟩]
    "p" (NewCompilePackage "p" importCompleteChanId) (by decide)

/-! ## C9: the creating importer's reply channel is dropped -/

theorem importHandle_notSubscribed (ch : Nat) (s : ImpState) (ev : importEvent)
    (hch : ch ≠ importCompleteChanId)
    (hs : chanNotSubscribed ch s)
    (hev : ∀ im, ev = importEvent.imp im → im.completeChannel ≠ ch) :
    chanNotSubscribed ch (importHandle s ev) ∧
    ∀ pr ∈ (importHandle s ev).sends, pr ∈ s.sends ∨ pr.1 ≠ ch := by
  cases ev with
  | imp im =>
      have hne : im.completeChannel ≠ ch := hev im rfl
      cases hl : mapLookup im.packageName s.packages with
      | some cp =>
          by_cases hst : cp.status = compileStatus.parsing
          · refine ⟨?_, ?_⟩
            · intro name cq hq
              simp only [importHandle, hl, if_pos hst] at hq
              by_cases hn : name = im.packageName
              · subst hn
                rw [mapLookup_mapInsert_self] at hq
                injection hq with hq
                subst hq
                simp only [List.mem_append, List.mem_singleton, not_or]
                exact ⟨hs _ _ hl, fun hc => hne hc.symm⟩
              · rw [mapLookup_mapInsert_ne _ _ _ _ hn] at hq
                exact hs _ _ hq
            · intro pr hpr
              simp only [importHandle, hl, if_pos hst] at hpr
              exact Or.inl hpr
          · refine ⟨?_, ?_⟩
            · intro name cq hq
              simp only [importHandle, hl, if_neg hst] at hq
              exact hs _ _ hq
            · intro pr hpr
              simp only [importHandle, hl, if_neg hst, List.mem_append,
                List.mem_singleton] at hpr
              cases hpr with
              | inl hmem => exact Or.inl hmem
              | inr hpr₀ =>
                  subst hpr₀
                  exact Or.inr hne
      | none =>
          refine ⟨?_, ?_⟩
          · intro name cq hq
            simp only [importHandle, hl] at hq
            by_cases hn : name = im.packageName
            · subst hn
              rw [mapLookup_mapInsert_self] at hq
              injection hq with hq
              subst hq
              simpa [NewCompilePackage] using hch
            · rw [mapLookup_mapInsert_ne _ _ _ _ hn] at hq
              exact hs _ _ hq
          · intro pr hpr
            simp only [importHandle, hl] at hpr
            exact Or.inl hpr
  | complete cm =>
      cases hl : mapLookup cm.packageName s.packages with
      | some cp =>
          refine ⟨?_, ?_⟩
          · intro name cq hq
            simp only [importHandle, hl] at hq
            by_cases hn : name = cm.packageName
            · subst hn
              rw [mapLookup_mapInsert_self] at hq
              injection hq with hq
              subst hq
              simp
            · rw [mapLookup_mapInsert_ne _ _ _ _ hn] at hq
              exact hs _ _ hq
          · intro pr hpr
            simp only [importHandle, hl, List.mem_append] at hpr
            cases hpr with
            | inl hmem => exact Or.inl hmem
            | inr hmem =>
                simp only [List.mem_map] at hmem
                obtain ⟨c, hc, hpr₀⟩ := hmem
                subst hpr₀
                exact Or.inr fun hcch => (hs _ _ hl) (hcch ▸ hc)
      | none =>
          refine ⟨?_, ?_⟩
          · intro name cq hq
            simp only [importHandle, hl] at hq
            exact hs _ _ hq
          · intro pr hpr
            simp only [importHandle, hl] at hpr
            exact Or.inl hpr

theorem importSteps_notSubscribed (ch : Nat) (hch : ch ≠ importCompleteChanId) :
    ∀ (evs : List importEvent) (s : ImpState),
      chanNotSubscribed ch s →
      (∀ ev ∈ evs, ∀ im, ev = importEvent.imp im → im.completeChannel ≠ ch) →
      chanNotSubscribed ch (importSteps evs s) ∧
      ∀ pr ∈ (importSteps evs s).sends, pr ∈ s.sends ∨ pr.1 ≠ ch := by
  intro evs
  induction evs with
  | nil =>
      intro s hs _
      exact ⟨hs, fun pr hpr => Or.inl hpr⟩
  | cons ev rest ih =>
      intro s hs hev
      have hstep := importHandle_notSubscribed ch s ev hch hs (hev ev (by simp))
      have hrest := ih (importHandle s ev) hstep.1
        (fun e he im heq => hev e (List.mem_cons_of_mem ev he) im heq)
      simp only [importSteps, List.foldl_cons]
      refine ⟨hrest.1, ?_⟩
      intro pr hpr
      rcases hrest.2 pr hpr with hmem | hne
      · exact hstep.2 pr hmem
      · exact Or.inr hne

/-- C9: when the first `ImportRequest` for a package finds no existing
unit, the created unit's subscriber list is exactly `[importComplete]`
(the Package Import Loop's internal aggregation channel); the requester's
reply channel is recorded nowhere and nothing is sent to it by the
creation step — and, as long as that channel never appears in a later
`ImportRequest`, no later step of the loop ever sends to it either, so
the creating importer never receives the package's completion notice. -/
theorem C9_creator_channel_dropped (s : ImpState) (im : importMessage)
    (evs : List importEvent)
    (h0 : mapLookup im.packageName s.packages = none)
    (hch : im.completeChannel ≠ importCompleteChanId)
    (hs : chanNotSubscribed im.completeChannel s)
    (hev : ∀ ev ∈ evs, ∀ im₂, ev = importEvent.imp im₂ →
       im₂.completeChannel ≠ im.completeChannel) :
    mapLookup im.packageName
        (importHandle s (importEvent.imp im)).packages =
      some (NewCompilePackage im.packageName importCompleteChanId) ∧
    (NewCompilePackage im.packageName importCompleteChanId).clientCompleteChannels =
      [importCompleteChanId] ∧
    (importHandle s (importEvent.imp im)).sends = s.sends ∧
    ∀ pr ∈ (importSteps evs (importHandle s (importEvent.imp im))).sends,
      pr ∈ s.sends ∨ pr.1 ≠ im.completeChannel := by
  have hcreate : (importHandle s (importEvent.imp im)).packages =
      mapInsert im.packageName
        (NewCompilePackage im.packageName importCompleteChanId) s.packages := by
    simp [importHandle, h0]
  have hsends : (importHandle s (importEvent.imp im)).sends = s.sends := by
    simp [importHandle, h0]
  have hs₁ : chanNotSubscribed im.completeChannel
      (importHandle s (importEvent.imp im)) := by
    intro name cq hq
    rw [hcreate] at hq
    by_cases hn : name = im.packageName
    · subst hn
      rw [mapLookup_mapInsert_self] at hq
      injection hq with hq
      subst hq
      simpa [NewCompilePackage] using hch
    · rw [mapLookup_mapInsert_ne _ _ _ _ hn] at hq
      exact hs _ _ hq
  have hrest := importSteps_notSubscribed im.completeChannel hch evs _ hs₁ hev
  refine ⟨?_, rfl, hsends, ?_⟩
  · rw [hcreate]
    exact mapLookup_mapInsert_self _ _ _
  · intro pr hpr
    rcases hrest.2 pr hpr with hmem | hne
    · rw [hsends] at hmem
      exact Or.inl hmem
    · exact Or.inr hne

/-- Witness for C9: a concrete first import request for `"p"` sends
nothing to anyone; in particular the requester on channel 7 gets no
message from the creation step. -/
theorem C9_witness :
    (importHandle impInit
        (importEvent.imp ⟨"p", "f.go", ⟨⟨1, 1⟩, ⟨1, 5⟩⟩, 7⟩)).sends =
      impInit.sends :=
  (C9_creator_channel_dropped impInit ⟨"p", "f.go", ⟨⟨1, 1⟩, ⟨1, 5⟩⟩, 7⟩
      [importEvent.complete ⟨"p", "f.go", none⟩]
      rfl (by decide)
      (fun name cp h => by simp [impInit, mapLookup] at h)
      (by intro ev hmem im₂ heq; subst heq; simp at hmem)).2.2.1

end Golightly
